import Mathlib

/- Shallow embedding of src/decade-trends/parse_generators.py.

   Cell values of a spreadsheet are strings, numbers (modelled as exact
   rationals) or the missing marker (pandas NaN).  A table is a header
   row plus a list of data rows.  Dataframes are rectangular; the model
   keeps rows as plain lists and reads an absent cell as missing. -/

deriving instance DecidableEq for Except

inductive Value : Type where
  | str : String → Value
  | num : ℚ → Value
  | missing : Value
deriving DecidableEq, Repr

abbrev Row := List Value

structure Table where
  headers : List String
  rows : List Row
deriving DecidableEq, Repr

/-- Index of the first column carrying the given label, if any. -/
def colIdx (headers : List String) (c : String) : Option Nat :=
  headers.findIdx? (fun h => h == c)

/-- Read the cell of a row under a column label (missing when absent). -/
def getCell (headers : List String) (r : Row) (c : String) : Value :=
  match colIdx headers c with
  | some i => r.getD i .missing
  | none => .missing

/-- One simultaneous application of a rename table: each label is looked
    up in the old-to-new map and replaced when present, exactly the
    semantics of a single pandas rename call with a dict. -/
def applyRename (m : List (String × String)) (c : String) : String :=
  (m.lookup c).getD c

def renameCols (m : List (String × String)) (t : Table) : Table :=
  { t with headers := t.headers.map (applyRename m) }

def mapCols (f : String → String) (t : Table) : Table :=
  { t with headers := t.headers.map f }

/-- Column projection (bracket selection): errors when a requested
    column is absent, as pandas raises a KeyError. -/
def project (t : Table) (cols : List String) : Except String Table :=
  if cols.all (fun c => t.headers.contains c) then
    .ok { headers := cols, rows := t.rows.map (fun r => cols.map (getCell t.headers r)) }
  else .error "KeyError: column not found"

def filterRows (t : Table) (p : Row → Bool) : Table :=
  { t with rows := t.rows.filter p }

/-- Column assignment: overwrite in place when the column exists, else
    append a new column on the right (pandas assignment semantics). -/
def setColWith (t : Table) (c : String) (f : Row → Value) : Table :=
  match colIdx t.headers c with
  | some i => { t with rows := t.rows.map (fun r => r.set i (f r)) }
  | none => { headers := t.headers ++ [c], rows := t.rows.map (fun r => r ++ [f r]) }

/-- Fallible cell-wise rewrite of one column (a replace followed by a
    cast); the first failing cell aborts the whole call. -/
def coerceCol (t : Table) (c : String) (f : Value → Except String Value) : Except String Table :=
  match colIdx t.headers c with
  | some i =>
    (t.rows.mapM (fun r => (f (r.getD i .missing)).map (fun v => r.set i v))).map
      (fun rows => { t with rows := rows })
  | none => .error "KeyError: column not found"

/-- A dataframe after set_index: the index column is kept separately. -/
structure ITable where
  index : List String
  headers : List String
  rows : List Row
deriving DecidableEq, Repr

def ITable.setColWith (t : ITable) (c : String) (f : Row → Value) : ITable :=
  match colIdx t.headers c with
  | some i => { t with rows := t.rows.map (fun r => r.set i (f r)) }
  | none => { t with headers := t.headers ++ [c], rows := t.rows.map (fun r => r ++ [f r]) }

def ITable.coerceCol (t : ITable) (c : String) (f : Value → Except String Value) :
    Except String ITable :=
  match colIdx t.headers c with
  | some i =>
    (t.rows.mapM (fun r => (f (r.getD i .missing)).map (fun v => r.set i v))).map
      (fun rows => { t with rows := rows })
  | none => .error "KeyError: column not found"

/-- Row filtering keeps the index entries of the surviving rows. -/
def ITable.filterRows (t : ITable) (p : Row → Bool) : ITable :=
  let kept := (t.index.zip t.rows).filter (fun ir => p ir.2)
  { index := kept.map Prod.fst, headers := t.headers, rows := kept.map Prod.snd }

/- ===== value-level helpers of the source ===== -/

/-- The fixed raw-fuel-code to category table (source lines 7 to 50). -/
def energy_source_mapping : List (String × String) := [
  ("NG", "natural gas"), ("BIT", "coal"), ("SUB", "coal"), ("NUC", "nuclear"),
  ("WAT", "hydro"), ("WND", "wind"), ("RFO", "oil"), ("DFO", "oil"),
  ("LIG", "coal"), ("GEO", "other"), ("PC", "oil"), ("MSW", "by-products"),
  ("WDS", "by-products"), ("LFG", "by-products"), ("WH", "other"), ("WC", "coal"),
  ("KER", "oil"), ("SUN", "solar"), ("SGC", "coal"), ("JF", "oil"),
  ("OBL", "by-products"), ("AB", "by-products"), ("WO", "oil"), ("TDF", "by-products"),
  ("OBS", "by-products"), ("MWH", "storage"), ("OBG", "by-products"), ("OG", "natural gas"),
  ("SGP", "oil"), ("RC", "coal"), ("OTH", "other"), ("PG", "oil"),
  ("COL", "coal"), ("PET", "oil"), ("UNK", "other"), ("GAS", "natural gas"),
  ("OO", "other"), ("WOC", "other"), ("REF", "by-products"), ("MF", "other")]

/-- Series replace with the mapping: a code present in the table is
    replaced by its category, anything else passes through unchanged. -/
def classify (code : String) : String :=
  (energy_source_mapping.lookup code).getD code

def classifyValue : Value → Value
  | .str s => .str (classify s)
  | v => v

/-- The replace of the one-character blank string by NaN that each
    pipeline applies before its numeric casts. -/
def blankToMissing (v : Value) : Value :=
  if v = .str " " then .missing else v

def digitsToNat (l : List Char) : Nat :=
  l.foldl (fun acc c => 10 * acc + (c.toNat - 48)) 0

/-- Split a character list at every occurrence of a separator. -/
def splitOnChar (a : Char) : List Char → List (List Char)
  | [] => [[]]
  | c :: rest =>
    if c = a then [] :: splitOnChar a rest
    else
      match splitOnChar a rest with
      | [] => [[c]]
      | g :: gs => (c :: g) :: gs

/-- Strip leading and trailing blanks, as float() and int() do before
    parsing (the sheets use plain spaces only). -/
def trimSpaces (l : List Char) : List Char :=
  ((l.dropWhile (· == ' ')).reverse.dropWhile (· == ' ')).reverse

/-- Decimal parsing as done by float() on a string: surrounding blanks
    stripped, optional sign, digits with an optional single decimal
    point (exponents and the inf and nan spellings are not used by the
    sheets and are not modelled).  The value is assembled with mkRat so
    that it evaluates inside the kernel. -/
def parseFloat? (s : String) : Option ℚ :=
  let t := trimSpaces s.data
  let sgn : ℤ := if t.headD ' ' = '-' then -1 else 1
  let t := if t.headD ' ' = '-' ∨ t.headD ' ' = '+' then t.drop 1 else t
  match splitOnChar '.' t with
  | [a] =>
    if a.length != 0 && a.all Char.isDigit then
      some (mkRat (sgn * (digitsToNat a : ℤ)) 1)
    else none
  | [a, b] =>
    if (a.length != 0 || b.length != 0) && a.all Char.isDigit && b.all Char.isDigit then
      some (mkRat (sgn * ((digitsToNat a : ℤ) * 10 ^ b.length + (digitsToNat b : ℤ)))
        (10 ^ b.length))
    else none
  | _ => none

/-- Integer parsing as done by int() on a string. -/
def parseInt? (s : String) : Option ℤ :=
  let t := trimSpaces s.data
  let sgn : ℤ := if t.headD ' ' = '-' then -1 else 1
  let t := if t.headD ' ' = '-' ∨ t.headD ' ' = '+' then t.drop 1 else t
  if t.length != 0 && t.all Char.isDigit then some (sgn * (digitsToNat t : ℤ))
  else none

/-- astype(float): missing stays missing, numbers are kept, strings are
    parsed as decimal literals and anything else is a hard error. -/
def castFloat : Value → Except String Value
  | .missing => .ok .missing
  | .num q => .ok (.num q)
  | .str s =>
    match parseFloat? s with
    | some q => .ok (.num q)
    | none => .error "ValueError: could not convert string to float"

/-- Round to the nearest integer, ties to even (numpy rounding).  The
    computation stays on the numerator and denominator: f is the floor
    of q and t2 is twice the fractional part scaled by the denominator,
    so comparing t2 with the denominator compares the fractional part
    with one half. -/
def roundHalfEven (q : ℚ) : ℤ :=
  let d : ℤ := (q.den : ℤ)
  let f : ℤ := q.num.fdiv d
  let t2 : ℤ := 2 * (q.num - f * d)
  if t2 < d then f
  else if d < t2 then f + 1
  else if f % 2 = 0 then f else f + 1

/-- Series round(): missing stays missing (NaN rounds to NaN), numbers
    round half to even, any other value is a type error. -/
def pdRound : Value → Except String Value
  | .missing => .ok .missing
  | .num q => .ok (.num ((roundHalfEven q : ℤ) : ℚ))
  | .str _ => .error "TypeError: cannot round a non-numeric value"

/-- astype(int): truncation toward zero for numeric values; a missing
    value cannot be converted and is a hard error (pandas refuses to
    cast non-finite values to integer). -/
def castInt : Value → Except String Value
  | .missing => .error "ValueError: cannot convert missing value to integer"
  | .num q => .ok (.num ((q.num.tdiv (q.den : ℤ) : ℤ) : ℚ))
  | .str s =>
    match parseInt? s with
    | some n => .ok (.num (n : ℚ))
    | none => .error "ValueError: invalid literal for int"

/-- str() conversion as used by astype on the plant code column.  Plant
    codes are integers in the sheets; the fraction rendering for a
    non-integral rational stands in for the float rendering. -/
def pyStr : Value → String
  | .str s => s
  | .num q => if q.den = 1 then toString q.num else toString q
  | .missing => "nan"

/-- String concatenation needs an actual string on the right of plus. -/
def asStr : Value → Except String String
  | .str s => .ok s
  | _ => .error "TypeError: can only concatenate str to str"

/-- Division of a cell by 1000 (the pre-2001 kilowatt to megawatt
    rescale).  The quotient is assembled with mkRat so that it evaluates
    inside the kernel; the lemma mkRat_div1000 below shows it equals
    q / 1000. -/
def divBy1000 : Value → Except String Value
  | .num q => .ok (.num (mkRat q.num (q.den * 1000)))
  | .missing => .ok .missing
  | .str _ => .error "TypeError: unsupported operand for division"

/- ===== column normalization ===== -/

/-- The lower() method on a string (the labels are ASCII). -/
def strLower (s : String) : String :=
  ⟨s.data.map Char.toLower⟩

/-- The replace method for a one-character pattern and replacement:
    every occurrence of the pattern character is replaced. -/
def replaceChar (a b : Char) (s : String) : String :=
  ⟨s.data.map (fun c => if c = a then b else c)⟩

/-- The replace method for a one-character pattern and an empty
    replacement: every occurrence of the character is dropped. -/
def dropChar (a : Char) (s : String) : String :=
  ⟨s.data.filter (fun c => c != a)⟩

/-- Everything before the first occurrence of a two-character pattern
    (the whole list when the pattern never occurs). -/
def truncAt2Aux (p1 p2 : Char) : List Char → List Char
  | [] => []
  | [c] => [c]
  | c1 :: c2 :: rest =>
    if c1 = p1 ∧ c2 = p2 then [] else c1 :: truncAt2Aux p1 p2 (c2 :: rest)

/-- The split method at a two-character pattern followed by taking the
    first piece. -/
def truncAt2 (p1 p2 : Char) (s : String) : String :=
  ⟨truncAt2Aux p1 p2 s.data⟩

/-- The generic label normalization shared by the dict comprehensions:
    lowercase, spaces and slashes to underscores, question marks
    dropped, truncation at the first parenthesized unit suffix. -/
def normalizeLabelGeneric (c : String) : String :=
  truncAt2 '_' '(' (replaceChar '/' '_' (dropChar '?' (replaceChar ' ' '_' (strLower c))))

/-- Column normalization of parse_generators (lines 86 to 90): year 2010
    lowercases only, every other year gets the generic normalization. -/
def operatingNormalizeLabel (year : Int) (c : String) : String :=
  if year = 2010 then strLower c else normalizeLabelGeneric c

/-- Column normalization of parse_proposed (lines 111 to 113): the same
    generic normalization for every year, with no 2010 special case
    (the year argument of parse_proposed is in scope but unused there). -/
def proposedNormalizeLabel (_year : Int) (c : String) : String :=
  normalizeLabelGeneric c

/-- Column normalization of parse_retired (lines 144 to 146): the same
    generic normalization for every year, with no 2010 special case. -/
def retiredNormalizeLabel (_year : Int) (c : String) : String :=
  normalizeLabelGeneric c

/-- The second rename batch of parse_generators and parse_proposed. -/
def renameBatchFull : List (String × String) :=
  [("nameplate", "nameplate_capacity"), ("sector_name", "sector"), ("sector", "sector_code")]

/-- The composite ColumnNormalizer of the operating pipeline: generic
    (or 2010 lowercase-only) normalization, then the rename batch. -/
def opNormalize (year : Int) (c : String) : String :=
  applyRename renameBatchFull (operatingNormalizeLabel year c)

/- ===== operating pipeline (parse_generators, lines 66 to 102) ===== -/

def generators_columns : List String :=
  ["generator_uuid", "utility_name", "plant_name", "state", "county", "status", "sector",
   "nameplate_capacity", "energy_source_1", "operating_year", "planned_retirement_year"]

/-- The operating columns once generator_uuid has become the index. -/
def generators_data_columns : List String :=
  ["utility_name", "plant_name", "state", "county", "status", "sector",
   "nameplate_capacity", "energy_source_1", "operating_year", "planned_retirement_year"]

def opRename (year : Int) (df : Table) : Table :=
  renameCols renameBatchFull (mapCols (operatingNormalizeLabel year) df)

/-- The synthesized generator_uuid column: plant code cast to a string,
    an underscore, then the generator id (which must be a string). -/
def opUuids (year : Int) (df : Table) : Except String (List String) :=
  let t := opRename year df
  if t.headers.contains "plant_code" && t.headers.contains "generator_id" then
    t.rows.mapM (fun r =>
      (asStr (getCell t.headers r "generator_id")).map
        (fun gid => pyStr (getCell t.headers r "plant_code") ++ "_" ++ gid))
  else .error "AttributeError: plant_code or generator_id"

def operating_sectors : List Value :=
  [.str "Electric Utility", .str "IPP Non-CHP", .str "IPP"]

def operatingKeep (headers : List String) (r : Row) : Bool :=
  (getCell headers r "status" == .str "OP")
    && operating_sectors.contains (getCell headers r "sector")

def parse_generators (year : Int) (df : Table) : Except String ITable := do
  let t := opRename year df
  let us ← opUuids year df
  if generators_data_columns.all (fun c => t.headers.contains c) then
    let t3 : ITable :=
      { index := us, headers := generators_data_columns,
        rows := t.rows.map (fun r => generators_data_columns.map (getCell t.headers r)) }
    if t3.index.Nodup then
      let t4 ← t3.coerceCol "planned_retirement_year" (fun v => castFloat (blankToMissing v))
      let t5 := t4.setColWith "energy_source"
        (fun r => classifyValue (getCell t4.headers r "energy_source_1"))
      pure (t5.filterRows (operatingKeep t5.headers))
    else .error "AssertionError: generator_uuid is not unique"
  else .error "KeyError: column not found"

/- ===== proposed pipeline (parse_proposed, lines 105 to 136) ===== -/

def proposed_columns : List String :=
  ["utility_name", "plant_name", "plant_code", "state", "county", "nameplate_capacity",
   "status", "energy_source_1", "effective_year", "sector"]

def proposed_sectors : List Value := [.str "IPP Non-CHP", .str "Electric Utility"]

def proposed_statuses : List Value := [.str "TS", .str "V", .str "U", .str "T"]

def proposedKeep (headers : List String) (r : Row) : Bool :=
  proposed_sectors.contains (getCell headers r "sector")
    && proposed_statuses.contains (getCell headers r "status")

def proposedProjected (year : Int) (df : Table) : Except String Table :=
  project (renameCols renameBatchFull (mapCols (proposedNormalizeLabel year) df))
    proposed_columns

def parse_proposed (year : Int) (df : Table) : Except String Table := do
  let t2 ← proposedProjected year df
  let t3 := filterRows t2 (proposedKeep t2.headers)
  let t4 := setColWith t3 "energy_source"
    (fun r => classifyValue (getCell t3.headers r "energy_source_1"))
  coerceCol t4 "effective_year" (fun v => castFloat (blankToMissing v))

/- ===== retired pipeline (parse_retired, lines 138 to 185) ===== -/

def renameBatchRetired : List (String × String) :=
  [("sector_name", "sector"), ("sector", "sector_code")]

/-- The simultaneous pre-2001 label fixup map (lines 153 to 161). -/
def retiredSwap : List (String × String) :=
  [("operating_month", "operating_year"), ("operating_year", "operating_month"),
   ("retirement_month", "retirement_year"), ("retirement_year", "retirement_month"),
   ("existing_nameplate", "nameplate_capacity"),
   ("existing_energy_source_1", "energy_source_1"), ("existing_status", "status")]

def retiredFixup (year : Int) (t : Table) : Except String Table :=
  if year ≤ 2000 then
    let t1 := setColWith t "sector" (fun _ => .str "Electric Utility")
    let t2 := renameCols retiredSwap t1
    let t3 := setColWith t2 "utility_name" (fun _ => .str "")
    let t4 := setColWith t3 "plant_name" (fun _ => .str "")
    let t5 := setColWith t4 "state" (fun _ => .str "")
    let t6 := setColWith t5 "county" (fun _ => .str "")
    coerceCol t6 "nameplate_capacity" divBy1000
  else .ok t

def retired_columns : List String :=
  ["utility_name", "plant_name", "plant_code", "state", "county", "nameplate_capacity",
   "energy_source", "operating_year", "retirement_year"]

def retired_sectors : List Value := [.str "IPP Non-CHP", .str "Electric Utility"]

def retiredKeep (headers : List String) (r : Row) : Bool :=
  retired_sectors.contains (getCell headers r "sector")
    && (getCell headers r "status" == .str "RE")

def retiredRenamed (year : Int) (df : Table) : Table :=
  renameCols renameBatchRetired (mapCols (retiredNormalizeLabel year) df)

def retiredPrepared (year : Int) (df : Table) : Except String Table := do
  let t ← retiredFixup year (retiredRenamed year df)
  let t2 := setColWith t "energy_source"
    (fun r => classifyValue (getCell t.headers r "energy_source_1"))
  project (filterRows t2 (retiredKeep t2.headers)) retired_columns

/-- The final integer coercion applied to each of the three numeric
    columns: blank to missing, round, cast to integer. -/
def retiredFinalCoerce (v : Value) : Except String Value :=
  (pdRound (blankToMissing v)).bind castInt

/-- The final coercion loop over the three numeric columns (lines 183
    and 184), unrolled in source order. -/
def retiredCoerceStage (t : Table) : Except String Table := do
  let t1 ← coerceCol t "operating_year" retiredFinalCoerce
  let t2 ← coerceCol t1 "retirement_year" retiredFinalCoerce
  coerceCol t2 "nameplate_capacity" retiredFinalCoerce

def parse_retired (year : Int) (df : Table) : Except String Table :=
  (retiredPrepared year df).bind retiredCoerceStage


/- ===== concrete example sheets and their pipeline outputs ===== -/

/-- A minimal 2018-format operating sheet with two generators of one
    plant (distinct generator ids). -/
def exOperatingRaw : Table :=
  { headers := ["Utility Name", "Plant Name", "Plant Code", "Generator ID", "State", "County",
                "Status", "Sector Name", "Sector", "Nameplate Capacity (MW)", "Energy Source 1",
                "Operating Year", "Planned Retirement Year"],
    rows := [
      [.str "PGE", .str "Plant A", .num 123, .str "A", .str "CA", .str "X",
       .str "OP", .str "Electric Utility", .num 1, .num 100, .str "NG", .num 1990, .str " "],
      [.str "PGE", .str "Plant A", .num 123, .str "B", .str "CA", .str "X",
       .str "OP", .str "Electric Utility", .num 1, .num 50, .str "BIT", .num 1991, .num 2030]] }

/-- The same sheet with both rows sharing the generator id, so both rows
    synthesize the generator uuid 123_A. -/
def exOperatingDup : Table :=
  { exOperatingRaw with rows := [
      [.str "PGE", .str "Plant A", .num 123, .str "A", .str "CA", .str "X",
       .str "OP", .str "Electric Utility", .num 1, .num 100, .str "NG", .num 1990, .str " "],
      [.str "PGE", .str "Plant A", .num 123, .str "A", .str "CA", .str "X",
       .str "OP", .str "Electric Utility", .num 1, .num 50, .str "BIT", .num 1991, .num 2030]] }

/-- The operating output on exOperatingRaw, as computed by the model. -/
def exOperatingOut : ITable :=
  { index := ["123_A", "123_B"],
    headers := ["utility_name", "plant_name", "state", "county", "status", "sector",
                "nameplate_capacity", "energy_source_1", "operating_year",
                "planned_retirement_year", "energy_source"],
    rows := [
      [.str "PGE", .str "Plant A", .str "CA", .str "X", .str "OP", .str "Electric Utility",
       .num 100, .str "NG", .num 1990, .missing, .str "natural gas"],
      [.str "PGE", .str "Plant A", .str "CA", .str "X", .str "OP", .str "Electric Utility",
       .num 50, .str "BIT", .num 1991, .num 2030, .str "coal"]] }

/-- A minimal proposed sheet whose three rows carry the statuses TS, P
    and V, all in the Electric Utility sector. -/
def exProposedRaw : Table :=
  { headers := ["Utility Name", "Plant Name", "Plant Code", "State", "County",
                "Nameplate Capacity (MW)", "Status", "Energy Source 1", "Effective Year",
                "Sector Name", "Sector"],
    rows := [
      [.str "U1", .str "P1", .num 1, .str "CA", .str "X", .num 10, .str "TS", .str "SUN",
       .num 2022, .str "Electric Utility", .num 1],
      [.str "U2", .str "P2", .num 2, .str "CA", .str "X", .num 20, .str "P", .str "NG",
       .num 2023, .str "Electric Utility", .num 1],
      [.str "U3", .str "P3", .num 3, .str "CA", .str "X", .num 30, .str "V", .str "WND",
       .num 2024, .str "Electric Utility", .num 1]] }

/-- The projected proposed table on exProposedRaw, as computed by the
    model. -/
def exProposedProj : Table :=
  { headers := ["utility_name", "plant_name", "plant_code", "state", "county",
                "nameplate_capacity", "status", "energy_source_1", "effective_year", "sector"],
    rows := [
      [.str "U1", .str "P1", .num 1, .str "CA", .str "X", .num 10, .str "TS", .str "SUN",
       .num 2022, .str "Electric Utility"],
      [.str "U2", .str "P2", .num 2, .str "CA", .str "X", .num 20, .str "P", .str "NG",
       .num 2023, .str "Electric Utility"],
      [.str "U3", .str "P3", .num 3, .str "CA", .str "X", .num 30, .str "V", .str "WND",
       .num 2024, .str "Electric Utility"]] }

/-- The proposed output on exProposedRaw: the P row is gone. -/
def exProposedOut : Table :=
  { headers := ["utility_name", "plant_name", "plant_code", "state", "county",
                "nameplate_capacity", "status", "energy_source_1", "effective_year", "sector",
                "energy_source"],
    rows := [
      [.str "U1", .str "P1", .num 1, .str "CA", .str "X", .num 10, .str "TS", .str "SUN",
       .num 2022, .str "Electric Utility", .str "solar"],
      [.str "U3", .str "P3", .num 3, .str "CA", .str "X", .num 30, .str "V", .str "WND",
       .num 2024, .str "Electric Utility", .str "wind"]] }

/-- A minimal 2018-format retired sheet with one retired row. -/
def exRetiredRaw : Table :=
  { headers := ["Utility Name", "Plant Name", "Plant Code", "State", "County",
                "Nameplate Capacity (MW)", "Energy Source 1", "Operating Year",
                "Retirement Year", "Status", "Sector Name", "Sector"],
    rows := [
      [.str "U1", .str "P1", .num 7, .str "CA", .str "X", .num 100, .str "NG",
       .num 1970, .num 2010, .str "RE", .str "Electric Utility", .num 1]] }

/-- The retired output on exRetiredRaw, as computed by the model. -/
def exRetiredOut : Table :=
  { headers := ["utility_name", "plant_name", "plant_code", "state", "county",
                "nameplate_capacity", "energy_source", "operating_year", "retirement_year"],
    rows := [
      [.str "U1", .str "P1", .num 7, .str "CA", .str "X", .num 100, .str "natural gas",
       .num 1970, .num 2010]] }

/-- The same retired sheet with a blank-string retirement year. -/
def exRetiredRawBlank : Table :=
  { exRetiredRaw with rows := [
      [.str "U1", .str "P1", .num 7, .str "CA", .str "X", .num 100, .str "NG",
       .num 1970, .str " ", .str "RE", .str "Electric Utility", .num 1]] }

/-- A minimal pre-2001 existing-generators sheet.  The columns labelled
    month hold years and conversely, as in that vintage, and nameplate
    capacities are in kilowatts. -/
def exRetired2000Raw : Table :=
  { headers := ["Plant Code", "Generator ID", "Existing Status", "Existing Nameplate",
                "Existing Energy Source 1", "Operating Month", "Operating Year",
                "Retirement Month", "Retirement Year"],
    rows := [
      [.num 1, .str "A", .str "RE", .num 123456, .str "COL", .num 1970, .num 6,
       .num 1999, .num 12],
      [.num 2, .str "B", .str "RE", .num 500, .str "GAS", .num 1980, .num 7,
       .num 2000, .num 1]] }

/-- The retired output on exRetired2000Raw, as computed by the model:
    123456 kW becomes 123 MW and 500 kW becomes 0 MW (0.5 rounds to the
    even integer 0, as numpy rounds). -/
def exRetired2000Out : Table :=
  { headers := ["utility_name", "plant_name", "plant_code", "state", "county",
                "nameplate_capacity", "energy_source", "operating_year", "retirement_year"],
    rows := [
      [.str "", .str "", .num 1, .str "", .str "", .num 123, .str "coal",
       .num 1970, .num 1999],
      [.str "", .str "", .num 2, .str "", .str "", .num 0, .str "natural gas",
       .num 1980, .num 2000]] }

/-- Rectangularity: every row has exactly one cell per header. -/
def Rect (t : Table) : Prop := ∀ r ∈ t.rows, r.length = t.headers.length

/- ===== general lemmas about the embedding combinators ===== -/

theorem except_bind_ok {α β : Type} {x : Except String α} {f : α → Except String β} {b : β} :
    x.bind f = .ok b ↔ ∃ a, x = .ok a ∧ f a = .ok b := by
  cases x <;> simp [Except.bind]

theorem except_bindM_ok {α β : Type} {x : Except String α} {f : α → Except String β} {b : β} :
    (x >>= f) = .ok b ↔ ∃ a, x = .ok a ∧ f a = .ok b :=
  except_bind_ok

theorem except_map_ok {α β : Type} {x : Except String α} {g : α → β} {b : β} :
    x.map g = .ok b ↔ ∃ a, x = .ok a ∧ g a = b := by
  cases x <;> simp [Except.map]

theorem except_pure_ok {α : Type} {a b : α} :
    (pure a : Except String α) = .ok b ↔ a = b := by
  constructor
  · intro h; cases h; rfl
  · intro h; cases h; rfl

theorem mapM_ok_iff {α β : Type} (g : α → Except String β) :
    ∀ (l : List α) (l' : List β),
      l.mapM g = .ok l' ↔ List.Forall₂ (fun a b => g a = .ok b) l l' := by
  intro l
  induction l with
  | nil =>
    intro l'
    rw [List.mapM_nil]
    constructor
    · intro h
      cases except_pure_ok.mp h
      exact List.Forall₂.nil
    · intro h
      cases h
      rfl
  | cons a l ih =>
    intro l'
    rw [List.mapM_cons]
    constructor
    · intro h
      rcases except_bindM_ok.mp h with ⟨b, hb, h2⟩
      rcases except_bindM_ok.mp h2 with ⟨bs, hbs, h3⟩
      cases except_pure_ok.mp h3
      exact List.Forall₂.cons hb ((ih bs).mp hbs)
    · intro h
      cases h with
      | cons hab hrest =>
        rename_i b bs
        show (g a >>= fun b => (l.mapM g >>= fun bs => pure (b :: bs))) = _
        rw [hab]
        show (l.mapM g >>= fun bs2 => pure (b :: bs2)) = _
        rw [(ih bs).mpr hrest]
        rfl

theorem forall₂_mem_right {α β : Type} {R : α → β → Prop} :
    ∀ {l : List α} {l' : List β}, List.Forall₂ R l l' → ∀ b ∈ l', ∃ a ∈ l, R a b := by
  intro l l' h
  induction h with
  | nil => intro b hb; cases hb
  | cons hab _ ih =>
    intro b hb
    rcases List.mem_cons.mp hb with h1 | h2
    · subst h1; exact ⟨_, List.mem_cons_self _ _, hab⟩
    · rcases ih b h2 with ⟨a, ha, har⟩
      exact ⟨a, List.mem_cons_of_mem _ ha, har⟩

theorem forall₂_mem_left {α β : Type} {R : α → β → Prop} :
    ∀ {l : List α} {l' : List β}, List.Forall₂ R l l' → ∀ a ∈ l, ∃ b ∈ l', R a b := by
  intro l l' h
  induction h with
  | nil => intro a ha; cases ha
  | cons hab _ ih =>
    intro a ha
    rcases List.mem_cons.mp ha with h1 | h2
    · subst h1; exact ⟨_, List.mem_cons_self _ _, hab⟩
    · rcases ih a h2 with ⟨b, hb, hbr⟩
      exact ⟨b, List.mem_cons_of_mem _ hb, hbr⟩

theorem mapM_not_ok_of_mem {α β : Type} {g : α → Except String β} {l : List α} {a : α}
    (ha : a ∈ l) (hbad : ∀ b, g a ≠ .ok b) : ∀ l', l.mapM g ≠ .ok l' := by
  intro l' h
  rcases forall₂_mem_left ((mapM_ok_iff g l l').mp h) a ha with ⟨b, _, hb⟩
  exact hbad b hb

/- ===== lemmas about column lookup ===== -/

theorem colIdx_cons {a c : String} {h : List String} :
    colIdx (a :: h) c = if a = c then some 0 else (colIdx h c).map (· + 1) := by
  by_cases hac : a = c
  · simp [colIdx, List.findIdx?_cons, hac]
  · simp [colIdx, List.findIdx?_cons, hac, List.findIdx?_succ]

theorem colIdx_getElem : ∀ {h : List String} {c : String} {i : Nat},
    colIdx h c = some i → h[i]? = some c := by
  intro h
  induction h with
  | nil => intro c i hc; simp [colIdx] at hc
  | cons a t ih =>
    intro c i hc
    rw [colIdx_cons] at hc
    by_cases hac : a = c
    · rw [if_pos hac] at hc
      cases hc
      simp [hac]
    · rw [if_neg hac] at hc
      rcases Option.map_eq_some'.mp hc with ⟨j, hj, hij⟩
      subst hij
      simpa using ih hj

theorem colIdx_lt {h : List String} {c : String} {i : Nat} (hc : colIdx h c = some i) :
    i < h.length :=
  (List.getElem?_eq_some_iff.mp (colIdx_getElem hc)).1

theorem colIdx_mem {h : List String} {c : String} {i : Nat} (hc : colIdx h c = some i) :
    c ∈ h :=
  List.getElem?_mem (colIdx_getElem hc)

theorem colIdx_none_iff {h : List String} {c : String} :
    colIdx h c = none ↔ c ∉ h := by
  rw [colIdx, List.findIdx?_eq_none_iff]
  constructor
  · intro hall hmem
    have := hall c hmem
    simp at this
  · intro hnm x hx
    by_cases hxc : x = c
    · exact absurd (hxc ▸ hx) hnm
    · simp [hxc]

theorem colIdx_isSome_of_mem {h : List String} {c : String} (hc : c ∈ h) :
    ∃ i, colIdx h c = some i := by
  cases hcol : colIdx h c with
  | none => exact absurd hc (colIdx_none_iff.mp hcol)
  | some i => exact ⟨i, rfl⟩

theorem colIdx_ne {h : List String} {a b : String} {i j : Nat}
    (ha : colIdx h a = some i) (hb : colIdx h b = some j) (hab : a ≠ b) : i ≠ j := by
  intro hij
  subst hij
  have h1 := colIdx_getElem ha
  have h2 := colIdx_getElem hb
  rw [h1] at h2
  exact hab (Option.some.inj h2)

theorem colIdx_append_left {h h2 : List String} {c : String} {i : Nat}
    (hc : colIdx h c = some i) : colIdx (h ++ h2) c = some i := by
  induction h generalizing i with
  | nil => simp [colIdx] at hc
  | cons a t ih =>
    rw [colIdx_cons] at hc
    rw [List.cons_append, colIdx_cons]
    by_cases hac : a = c
    · rw [if_pos hac] at hc ⊢; exact hc
    · rw [if_neg hac] at hc ⊢
      rcases Option.map_eq_some'.mp hc with ⟨j, hj, hij⟩
      subst hij
      rw [ih hj]
      rfl

theorem colIdx_map_nodup {f : String → String} :
    ∀ {h : List String} {c : String} {i : Nat}, (h.map f).Nodup →
      colIdx h c = some i → colIdx (h.map f) (f c) = some i := by
  intro h
  induction h with
  | nil => intro c i _ hc; simp [colIdx] at hc
  | cons a t ih =>
    intro c i hnd hc
    rw [colIdx_cons] at hc
    rw [List.map_cons, colIdx_cons]
    by_cases hac : a = c
    · rw [if_pos hac] at hc
      cases hc
      rw [if_pos (by rw [hac])]
    · rw [if_neg hac] at hc
      rcases Option.map_eq_some'.mp hc with ⟨j, hj, hij⟩
      subst hij
      have hmem : c ∈ t := colIdx_mem hj
      have hfc : f c ∈ t.map f := List.mem_map_of_mem f hmem
      rw [List.map_cons, List.nodup_cons] at hnd
      have hfa : f a ≠ f c := by
        intro he
        exact hnd.1 (he ▸ hfc)
      rw [if_neg hfa, ih hnd.2 hj]
      rfl

/- ===== lemmas about cell access ===== -/

theorem getCell_of_colIdx {h : List String} {c : String} {i : Nat}
    (hc : colIdx h c = some i) (r : Row) :
    getCell h r c = r.getD i .missing := by
  simp [getCell, hc]

theorem getD_set_ne {r : Row} {i j : Nat} (hij : i ≠ j) (v : Value) :
    (r.set i v).getD j .missing = r.getD j .missing := by
  simp [List.getD_eq_getElem?_getD, List.getElem?_set_ne hij]

theorem getD_set_self {r : Row} {i : Nat} (hi : i < r.length) (v : Value) :
    (r.set i v).getD i .missing = v := by
  simp [List.getD_eq_getElem?_getD, List.getElem?_set_self hi]

theorem getD_append_lt {r : Row} {i : Nat} (hi : i < r.length) (v : Value) :
    (r ++ [v]).getD i .missing = r.getD i .missing := by
  simp [List.getD_eq_getElem?_getD, List.getElem?_append_left hi]

theorem getD_map_concrete (cols : List String) (i : Nat) (c : String)
    (hc : cols[i]? = some c) (g : String → Value) :
    ((cols.map g).getD i .missing) = g c := by
  simp [List.getD_eq_getElem?_getD, List.getElem?_map, hc]

/- ===== lemmas about the table operations ===== -/

theorem project_ok {t t' : Table} {cols : List String} (h : project t cols = .ok t') :
    t'.headers = cols ∧ t'.rows = t.rows.map (fun r => cols.map (getCell t.headers r)) := by
  unfold project at h
  split at h
  · injection h with h2
    subst h2
    exact ⟨rfl, rfl⟩
  · cases h

theorem coerceCol_ok {t t' : Table} {c : String} {f : Value → Except String Value}
    (h : coerceCol t c f = .ok t') :
    t'.headers = t.headers ∧ ∃ i, colIdx t.headers c = some i ∧
      List.Forall₂ (fun r r' => ∃ v, f (r.getD i .missing) = .ok v ∧ r' = r.set i v)
        t.rows t'.rows := by
  unfold coerceCol at h
  split at h
  case _ i hi =>
    rcases except_map_ok.mp h with ⟨rows, hrows, ht'⟩
    subst ht'
    refine ⟨rfl, i, hi, ?_⟩
    have h2 := (mapM_ok_iff _ _ _).mp hrows
    refine h2.imp ?_
    intro r r' hr
    rcases except_map_ok.mp hr with ⟨v, hv, hrv⟩
    exact ⟨v, hv, hrv.symm⟩
  · cases h

theorem coerceCol_not_ok {t : Table} {c : String} {f : Value → Except String Value} {i : Nat}
    (hi : colIdx t.headers c = some i) {r : Row} (hr : r ∈ t.rows)
    (hbad : ∀ v, f (r.getD i .missing) ≠ .ok v) :
    ∀ t', coerceCol t c f ≠ .ok t' := by
  intro t' h
  unfold coerceCol at h
  rw [hi] at h
  rcases except_map_ok.mp h with ⟨rows, hrows, _⟩
  refine mapM_not_ok_of_mem hr ?_ rows hrows
  intro r' hr'
  rcases except_map_ok.mp hr' with ⟨v, hv, _⟩
  exact hbad v hv

theorem setColWith_of_some {t : Table} {c : String} {f : Row → Value} {i : Nat}
    (hi : colIdx t.headers c = some i) :
    setColWith t c f = { t with rows := t.rows.map (fun r => r.set i (f r)) } := by
  unfold setColWith
  rw [hi]

theorem setColWith_of_none {t : Table} {c : String} {f : Row → Value}
    (hi : colIdx t.headers c = none) :
    setColWith t c f =
      { headers := t.headers ++ [c], rows := t.rows.map (fun r => r ++ [f r]) } := by
  unfold setColWith
  rw [hi]

theorem rect_mapCols {t : Table} (h : Rect t) (f : String → String) : Rect (mapCols f t) := by
  intro r hr
  rw [mapCols]
  simpa using h r hr

theorem rect_renameCols {t : Table} (h : Rect t) (m : List (String × String)) :
    Rect (renameCols m t) := by
  intro r hr
  rw [renameCols]
  simpa using h r hr

theorem rect_setColWith {t : Table} (h : Rect t) (c : String) (f : Row → Value) :
    Rect (setColWith t c f) := by
  cases hi : colIdx t.headers c with
  | some i =>
    rw [setColWith_of_some hi]
    intro r hr
    rcases List.mem_map.mp hr with ⟨r0, hr0, hr0e⟩
    subst hr0e
    simpa using h r0 hr0
  | none =>
    rw [setColWith_of_none hi]
    intro r hr
    rcases List.mem_map.mp hr with ⟨r0, hr0, hr0e⟩
    subst hr0e
    simp [h r0 hr0]

theorem rect_coerceCol {t t' : Table} (h : Rect t) {c : String} {f : Value → Except String Value}
    (hok : coerceCol t c f = .ok t') : Rect t' := by
  rcases coerceCol_ok hok with ⟨hh, i, _, hrel⟩
  intro r' hr'
  rcases forall₂_mem_right hrel r' hr' with ⟨r, hr, v, _, hrv⟩
  subst hrv
  rw [hh]
  simpa using h r hr

theorem rect_filterRows {t : Table} (h : Rect t) (p : Row → Bool) : Rect (filterRows t p) := by
  intro r hr
  rw [filterRows] at hr
  exact h r (List.mem_of_mem_filter hr)

/- ===== lemmas about the indexed table operations ===== -/

theorem icoerceCol_ok {t t' : ITable} {c : String} {f : Value → Except String Value}
    (h : t.coerceCol c f = .ok t') :
    t'.index = t.index ∧ t'.headers = t.headers ∧ ∃ i, colIdx t.headers c = some i ∧
      List.Forall₂ (fun r r' => ∃ v, f (r.getD i .missing) = .ok v ∧ r' = r.set i v)
        t.rows t'.rows := by
  unfold ITable.coerceCol at h
  split at h
  case _ i hi =>
    rcases except_map_ok.mp h with ⟨rows, hrows, ht'⟩
    subst ht'
    refine ⟨rfl, rfl, i, hi, ?_⟩
    have h2 := (mapM_ok_iff _ _ _).mp hrows
    refine h2.imp ?_
    intro r r' hr
    rcases except_map_ok.mp hr with ⟨v, hv, hrv⟩
    exact ⟨v, hv, hrv.symm⟩
  · cases h

theorem isetColWith_index (t : ITable) (c : String) (f : Row → Value) :
    (t.setColWith c f).index = t.index := by
  unfold ITable.setColWith
  cases colIdx t.headers c <;> rfl

theorem zip_map_fst_sublist {α β : Type} : ∀ (l : List α) (m : List β),
    List.Sublist ((l.zip m).map Prod.fst) l := by
  intro l
  induction l with
  | nil => intro m; simp
  | cons a t ih =>
    intro m
    cases m with
    | nil => simp
    | cons b m' =>
      rw [List.zip_cons_cons, List.map_cons]
      exact List.Sublist.cons₂ a (ih m')

theorem ifilterRows_index_sublist (t : ITable) (p : Row → Bool) :
    List.Sublist (t.filterRows p).index t.index := by
  unfold ITable.filterRows
  refine List.Sublist.trans ?_ (zip_map_fst_sublist t.index t.rows)
  exact (List.filter_sublist _).map Prod.fst

/- ===== bridging lemmas for the arithmetic helpers ===== -/

/-- The kernel-friendly quotient used by divBy1000 is division by 1000. -/
theorem mkRat_div1000 (q : ℚ) : mkRat q.num (q.den * 1000) = q / 1000 := by
  rw [Rat.mkRat_eq_divInt, Rat.divInt_eq_div]
  push_cast
  rw [div_mul_eq_div_div, Rat.num_div_den]

theorem divBy1000_num (q : ℚ) : divBy1000 (.num q) = .ok (.num (q / 1000)) := by
  rw [divBy1000, mkRat_div1000]

/-- A successful association-list lookup comes from an entry. -/
theorem lookup_mem {α β : Type} [BEq α] [LawfulBEq α] :
    ∀ {l : List (α × β)} {a : α} {b : β}, l.lookup a = some b → ∃ p ∈ l, p.2 = b := by
  intro l
  induction l with
  | nil => intro a b h; cases h
  | cons p t ih =>
    intro a b h
    rw [List.lookup] at h
    split at h
    · cases h
      exact ⟨p, List.mem_cons_self _ _, rfl⟩
    · rcases ih h with ⟨p2, hp2, hb⟩
      exact ⟨p2, List.mem_cons_of_mem _ hp2, hb⟩

/- ===== claim theorems ===== -/

/-- C1 counterexample: the claim says that for year 2010 every pipeline
    normalizes labels by lowercasing only; but the proposed and retired
    pipelines apply the full normalization for every year, so on the
    label Plant Code they produce plant_code rather than the merely
    lowercased plant code. -/
theorem C1_counterexample :
    ¬ (proposedNormalizeLabel 2010 "Plant Code" = strLower "Plant Code"
       ∧ retiredNormalizeLabel 2010 "Plant Code" = strLower "Plant Code") := by
  decide

/-- C1 amended: for year 2010 the OperatingPipeline normalization is
    lowercasing only (for every raw label), but for every raw label and
    every year, 2010 included, the ProposedPipeline and the
    RetiredPipeline apply the full normalization: lowercase, then
    spaces to underscores, then question marks stripped, then slashes
    to underscores, then truncation at the first parenthesized suffix.
    The concrete label exercises all four punctuation steps at year
    2010 and shows the result is not merely the lowercased label. -/
theorem C1_amended_thm :
    (∀ c : String, operatingNormalizeLabel 2010 c = strLower c)
    ∧ (∀ (year : Int) (c : String),
        proposedNormalizeLabel year c
          = truncAt2 '_' '('
              (replaceChar '/' '_' (dropChar '?' (replaceChar ' ' '_' (strLower c)))))
    ∧ (∀ (year : Int) (c : String),
        retiredNormalizeLabel year c
          = truncAt2 '_' '('
              (replaceChar '/' '_' (dropChar '?' (replaceChar ' ' '_' (strLower c)))))
    ∧ proposedNormalizeLabel 2010 "Plant? Co/de (MW)" = "plant_co_de"
    ∧ retiredNormalizeLabel 2010 "Plant? Co/de (MW)" = "plant_co_de"
    ∧ strLower "Plant? Co/de (MW)" = "plant? co/de (mw)" := by
  refine ⟨fun c => ?_, fun year c => rfl, fun year c => rfl, by decide, by decide, by decide⟩
  simp [operatingNormalizeLabel]

/-- C3: the rename batch is applied as one simultaneous mapping:
    normalizing Sector for 2018 gives sector_code while Sector Name
    gives sector and Nameplate Capacity (MW) gives nameplate_capacity;
    applying the batch to a table carrying both sector_name and sector
    relabels them simultaneously without touching the rows, and the
    pre-2001 month-year swap likewise exchanges the labels while the
    row data stays in place. -/
theorem C3_thm :
    opNormalize 2018 "Sector" = "sector_code"
    ∧ opNormalize 2018 "Sector Name" = "sector"
    ∧ opNormalize 2018 "Nameplate Capacity (MW)" = "nameplate_capacity"
    ∧ renameCols renameBatchFull
        { headers := ["plant_code", "sector_name", "sector", "nameplate"],
          rows := [[.num 1, .str "IPP", .num 2, .num 100]] }
      = { headers := ["plant_code", "sector", "sector_code", "nameplate_capacity"],
          rows := [[.num 1, .str "IPP", .num 2, .num 100]] }
    ∧ getCell ["plant_code", "sector", "sector_code", "nameplate_capacity"]
        [.num 1, .str "IPP", .num 2, .num 100] "sector" = .str "IPP"
    ∧ getCell ["plant_code", "sector", "sector_code", "nameplate_capacity"]
        [.num 1, .str "IPP", .num 2, .num 100] "sector_code" = .num 2
    ∧ renameCols retiredSwap
        { headers := ["operating_month", "operating_year", "retirement_month",
                      "retirement_year"],
          rows := [[.num 1970, .num 6, .num 1999, .num 12]] }
      = { headers := ["operating_year", "operating_month", "retirement_year",
                      "retirement_month"],
          rows := [[.num 1970, .num 6, .num 1999, .num 12]] } := by
  decide

/-- C5: every raw code of the fixed mapping classifies to exactly its
    documented category, any string absent from the mapping passes
    through unchanged, and classification is total. -/
theorem C5_thm :
    (∀ p ∈ energy_source_mapping, classify p.1 = p.2)
    ∧ (∀ s : String, energy_source_mapping.lookup s = none → classify s = s)
    ∧ classify "BIT" = "coal" ∧ classify "NG" = "natural gas"
    ∧ classify "MWH" = "storage" ∧ classify "RC" = "coal" ∧ classify "UNK" = "other" := by
  refine ⟨by decide, ?_, by decide, by decide, by decide, by decide, by decide⟩
  intro s h
  simp [classify, h]

/-- C5 witness: the theorem applied to the entry NG of the mapping and
    to the unmapped code ZZZ. -/
theorem C5_witness : classify "NG" = "natural gas" ∧ classify "ZZZ" = "ZZZ" :=
  ⟨C5_thm.1 ("NG", "natural gas") (by decide), C5_thm.2.1 "ZZZ" (by decide)⟩

/-- C9: classification is idempotent on every string, because the
    category names on the right of the mapping never occur among its
    raw-code keys. -/
theorem C9_thm : ∀ x : String, classify (classify x) = classify x := by
  intro x
  cases h : energy_source_mapping.lookup x with
  | none => simp [classify, h]
  | some c =>
    have hc : ∀ p ∈ energy_source_mapping, energy_source_mapping.lookup p.2 = none := by
      decide
    rcases lookup_mem h with ⟨p, hp, hpc⟩
    have h1 : classify x = c := by simp [classify, h]
    rw [h1]
    rw [← hpc] at h1 ⊢
    simp [classify, hc p hp]

/-- C10: the blank-to-missing replace recognizes exactly the
    one-character space string: precisely that value becomes missing,
    while the empty string and longer whitespace pass unchanged into the
    numeric cast (which then rejects them), in the coercions of all
    three pipelines. -/
theorem C10_thm :
    blankToMissing (.str " ") = .missing
    ∧ (∀ v : Value, v ≠ .str " " → blankToMissing v = v)
    ∧ blankToMissing (.str "") = .str ""
    ∧ blankToMissing (.str "  ") = .str "  "
    ∧ castFloat (blankToMissing (.str " ")) = .ok .missing
    ∧ castFloat (blankToMissing (.str ""))
        = .error "ValueError: could not convert string to float"
    ∧ castFloat (blankToMissing (.str "  "))
        = .error "ValueError: could not convert string to float"
    ∧ retiredFinalCoerce (.str " ")
        = .error "ValueError: cannot convert missing value to integer"
    ∧ retiredFinalCoerce (.str "") = .error "TypeError: cannot round a non-numeric value" := by
  refine ⟨by decide, ?_, by decide, by decide, by decide, by decide, by decide, by decide,
    by decide⟩
  intro v hv
  simp [blankToMissing, hv]

/-- C10 witness: the pass-through case applied to a numeric cell. -/
theorem C10_witness : blankToMissing (.num 5) = .num 5 :=
  C10_thm.2.1 (.num 5) (by decide)

/- ===== retired pipeline header lemmas ===== -/

theorem coerceCol_headers {t t' : Table} {c : String} {f : Value → Except String Value}
    (h : coerceCol t c f = .ok t') : t'.headers = t.headers :=
  (coerceCol_ok h).1

theorem retiredPrepared_headers {year : Int} {df tp : Table}
    (h : retiredPrepared year df = .ok tp) : tp.headers = retired_columns := by
  unfold retiredPrepared at h
  rcases except_bindM_ok.mp h with ⟨t, _, h2⟩
  exact (project_ok h2).1

theorem retiredCoerceStage_headers {tp t : Table}
    (h : retiredCoerceStage tp = .ok t) : t.headers = tp.headers := by
  unfold retiredCoerceStage at h
  rcases except_bindM_ok.mp h with ⟨t1, h1, hc2⟩
  rcases except_bindM_ok.mp hc2 with ⟨t2, h2, h3⟩
  rw [coerceCol_headers h3, coerceCol_headers h2, coerceCol_headers h1]

/-- C2 counterexample: a well-formed 2018-format retired sheet builds
    successfully, yet the output carries no generator_uuid, status,
    sector or energy_source_1 column, contradicting the claimed
    GeneratorRecord shape. -/
theorem C2_counterexample :
    parse_retired 2018 exRetiredRaw = .ok exRetiredOut
    ∧ "generator_uuid" ∉ exRetiredOut.headers
    ∧ "status" ∉ exRetiredOut.headers
    ∧ "sector" ∉ exRetiredOut.headers
    ∧ "energy_source_1" ∉ exRetiredOut.headers := by
  refine ⟨by decide, by decide, by decide, by decide, by decide⟩

/-- C2 amended: for every year, a successful RetiredPipeline build
    returns a table whose columns are exactly utility_name, plant_name,
    plant_code, state, county, nameplate_capacity, energy_source,
    operating_year and retirement_year; it does carry nameplate_capacity,
    energy_source, operating_year and retirement_year, but none of
    generator_uuid, status, sector or energy_source_1. -/
theorem C2_amended_thm : ∀ (year : Int) (df t : Table), parse_retired year df = .ok t →
    t.headers = retired_columns
    ∧ ("nameplate_capacity" ∈ t.headers ∧ "energy_source" ∈ t.headers
      ∧ "operating_year" ∈ t.headers ∧ "retirement_year" ∈ t.headers
      ∧ "generator_uuid" ∉ t.headers ∧ "status" ∉ t.headers
      ∧ "sector" ∉ t.headers ∧ "energy_source_1" ∉ t.headers) := by
  intro year df t h
  rcases except_bind_ok.mp h with ⟨tp, hp, hc⟩
  have hh : t.headers = retired_columns := by
    rw [retiredCoerceStage_headers hc, retiredPrepared_headers hp]
  refine ⟨hh, ?_⟩
  rw [hh]
  decide

/-- C2 amended witness: the amended theorem applied to the concrete
    2018-format sheet exRetiredRaw and its output. -/
theorem C2_amended_witness :
    exRetiredOut.headers = retired_columns
    ∧ ("nameplate_capacity" ∈ exRetiredOut.headers ∧ "energy_source" ∈ exRetiredOut.headers
      ∧ "operating_year" ∈ exRetiredOut.headers ∧ "retirement_year" ∈ exRetiredOut.headers
      ∧ "generator_uuid" ∉ exRetiredOut.headers ∧ "status" ∉ exRetiredOut.headers
      ∧ "sector" ∉ exRetiredOut.headers ∧ "energy_source_1" ∉ exRetiredOut.headers) :=
  C2_amended_thm 2018 exRetiredRaw exRetiredOut (by decide)

/- ===== the retired final coercion and its failure behaviour ===== -/

/-- The rounding used by the final coercions rounds to a nearest
    integer: the result never sits more than one half away from the
    argument (ties go to the even integer). -/
theorem roundHalfEven_nearest (q : ℚ) : |q - ((roundHalfEven q : ℤ) : ℚ)| ≤ 1 / 2 := by
  have hdpos : (0 : ℤ) < (q.den : ℤ) := by exact_mod_cast q.pos
  set d : ℤ := (q.den : ℤ) with hdset
  set n : ℤ := q.num with hnset
  set f : ℤ := n.fdiv d with hfset
  set m : ℤ := n.fmod d with hmset
  have hden : (0 : ℚ) < (d : ℚ) := by exact_mod_cast hdpos
  have hdne : (d : ℚ) ≠ 0 := ne_of_gt hden
  have hq : q = (n : ℚ) / (d : ℚ) := by
    rw [hnset, hdset]
    push_cast
    exact (Rat.num_div_den q).symm
  have hm0 : (0 : ℤ) ≤ m := Int.fmod_nonneg' n hdpos
  have hmd : m < d := Int.fmod_lt_of_pos n hdpos
  have hnm : d * f + m = n := Int.fdiv_add_fmod n d
  have hnmQ : (d : ℚ) * (f : ℚ) + (m : ℚ) = (n : ℚ) := by exact_mod_cast hnm
  have hm0Q : (0 : ℚ) ≤ (m : ℚ) := by exact_mod_cast hm0
  have hmdQ : (m : ℚ) < (d : ℚ) := by exact_mod_cast hmd
  have hA : 2 * m ≤ d → |q - (f : ℚ)| ≤ 1 / 2 := by
    intro h2
    have h2Q : ((2 * m : ℤ) : ℚ) ≤ ((d : ℤ) : ℚ) := Int.cast_le.mpr h2
    push_cast at h2Q
    have hqf : q - (f : ℚ) = (m : ℚ) / (d : ℚ) := by
      rw [hq]
      field_simp
      linear_combination -hnmQ
    rw [hqf, abs_of_nonneg (by positivity), div_le_iff₀ hden]
    linarith
  have hB : d ≤ 2 * m → |q - ((f + 1 : ℤ) : ℚ)| ≤ 1 / 2 := by
    intro h2
    have h2Q : ((d : ℤ) : ℚ) ≤ ((2 * m : ℤ) : ℚ) := Int.cast_le.mpr h2
    push_cast at h2Q
    have hqf : q - ((f + 1 : ℤ) : ℚ) = ((m : ℚ) - (d : ℚ)) / (d : ℚ) := by
      rw [hq]
      push_cast
      field_simp
      linear_combination -hnmQ
    have ha : ((m : ℚ) - (d : ℚ)) / (d : ℚ) ≤ 0 :=
      div_nonpos_of_nonpos_of_nonneg (by linarith) hden.le
    have hneg : -(((m : ℚ) - (d : ℚ)) / (d : ℚ)) = ((d : ℚ) - (m : ℚ)) / (d : ℚ) := by
      ring
    rw [hqf, abs_of_nonpos ha, hneg, div_le_iff₀ hden]
    linarith
  have hval : roundHalfEven q
      = (if 2 * (n - f * d) < d then f else if d < 2 * (n - f * d) then f + 1
         else if f % 2 = 0 then f else f + 1) := rfl
  have hmm : n - f * d = m := by
    rw [hmset, Int.fmod_def]
    ring
  rw [hmm] at hval
  rw [hval]
  split
  · exact hA (le_of_lt (by assumption))
  · split
    · exact hB (le_of_lt (by assumption))
    · rename_i hnlt1 hnlt2
      have h2 : 2 * m = d := le_antisymm (not_lt.mp hnlt2) (not_lt.mp hnlt1)
      split
      · exact hA (le_of_eq h2)
      · exact hB (le_of_eq h2.symm)

theorem retiredFinalCoerce_num (q : ℚ) :
    retiredFinalCoerce (.num q) = .ok (.num ((roundHalfEven q : ℤ) : ℚ)) := by
  have h1 : blankToMissing (.num q) = .num q := by simp [blankToMissing]
  simp [retiredFinalCoerce, h1, pdRound, Except.bind, castInt,
    Rat.num_intCast, Rat.den_intCast, Int.tdiv_one]

theorem retiredFinalCoerce_bad {v : Value} (hv : blankToMissing v = .missing) :
    ∀ w, retiredFinalCoerce v ≠ .ok w := by
  intro w h
  unfold retiredFinalCoerce at h
  rw [hv] at h
  simp [pdRound, Except.bind, castInt] at h

theorem retiredCoerceStage_not_ok {tp : Table} (hh : tp.headers = retired_columns)
    {r : Row} (hr : r ∈ tp.rows) {c : String}
    (hc : c ∈ (["operating_year", "retirement_year", "nameplate_capacity"] : List String))
    (hbad : ∀ w, retiredFinalCoerce (getCell tp.headers r c) ≠ .ok w) :
    ∀ t, retiredCoerceStage tp ≠ .ok t := by
  have hoy : colIdx tp.headers "operating_year" = some 7 := by rw [hh]; decide
  have hry : colIdx tp.headers "retirement_year" = some 8 := by rw [hh]; decide
  have hnc : colIdx tp.headers "nameplate_capacity" = some 5 := by rw [hh]; decide
  intro t h
  unfold retiredCoerceStage at h
  rcases except_bindM_ok.mp h with ⟨t1, h1, hc2⟩
  rcases except_bindM_ok.mp hc2 with ⟨t2, h2, h3⟩
  rcases List.mem_cons.mp hc with hceq | hc'
  · -- the bad cell sits in operating_year: the first coercion fails
    subst hceq
    refine coerceCol_not_ok hoy hr ?_ t1 h1
    rw [← getCell_of_colIdx hoy]
    exact hbad
  rcases List.mem_cons.mp hc' with hceq | hc''
  · -- the bad cell sits in retirement_year: it survives the first
    -- coercion unchanged and makes the second one fail
    subst hceq
    rcases coerceCol_ok h1 with ⟨he1, i, hi, hrel⟩
    have hi7 : i = 7 := by rw [hoy] at hi; exact (Option.some.inj hi).symm
    subst hi7
    rcases forall₂_mem_left hrel r hr with ⟨r', hr', v, _, hrv⟩
    have hry1 : colIdx t1.headers "retirement_year" = some 8 := by rw [he1]; exact hry
    refine coerceCol_not_ok hry1 hr' ?_ t2 h2
    rw [hrv] at hr' ⊢
    intro w
    rw [getD_set_ne (by decide)]
    rw [← getCell_of_colIdx hry]
    exact hbad w
  rcases List.mem_cons.mp hc'' with hceq | hfin
  · -- the bad cell sits in nameplate_capacity: it survives the first
    -- two coercions unchanged and makes the last one fail
    subst hceq
    rcases coerceCol_ok h1 with ⟨he1, i, hi, hrel⟩
    have hi7 : i = 7 := by rw [hoy] at hi; exact (Option.some.inj hi).symm
    subst hi7
    rcases forall₂_mem_left hrel r hr with ⟨r', hr', v, _, hrv⟩
    rcases coerceCol_ok h2 with ⟨he2, j, hj, hrel2⟩
    have hj8 : j = 8 := by
      rw [he1, hry] at hj
      exact (Option.some.inj hj).symm
    subst hj8
    rcases forall₂_mem_left hrel2 r' hr' with ⟨r'', hr'', w, _, hrw⟩
    have hnc2 : colIdx t2.headers "nameplate_capacity" = some 5 := by
      rw [he2, he1]; exact hnc
    refine coerceCol_not_ok hnc2 hr'' ?_ t h3
    rw [hrw, hrv]
    intro u
    rw [getD_set_ne (by decide), getD_set_ne (by decide)]
    rw [← getCell_of_colIdx hnc]
    exact hbad u
  · cases hfin

/-- C6: in the retired final coercion a blank-string value becomes
    missing and then fails the integer cast, numeric values are rounded
    to a nearest integer (ties to even) and cast to integer, a missing
    value is a hard error, and whenever any of the three final columns
    of the prepared table holds a blank or missing cell the whole build
    call fails with no partial result. -/
theorem C6_thm :
    retiredFinalCoerce (.str " ")
      = .error "ValueError: cannot convert missing value to integer"
    ∧ retiredFinalCoerce .missing
      = .error "ValueError: cannot convert missing value to integer"
    ∧ (∀ q : ℚ, retiredFinalCoerce (.num q) = .ok (.num ((roundHalfEven q : ℤ) : ℚ)))
    ∧ (∀ (year : Int) (df tp : Table), retiredPrepared year df = .ok tp →
        (∃ r ∈ tp.rows, ∃ c ∈ (["operating_year", "retirement_year",
            "nameplate_capacity"] : List String),
          blankToMissing (getCell tp.headers r c) = .missing) →
        ∀ t, parse_retired year df ≠ .ok t)
    ∧ (∀ q : ℚ, |q - ((roundHalfEven q : ℤ) : ℚ)| ≤ 1 / 2) := by
  refine ⟨by decide, by decide, retiredFinalCoerce_num, ?_, roundHalfEven_nearest⟩
  · intro year df tp hp hbadcell t h
    rcases except_bind_ok.mp h with ⟨tp', hp', hcs⟩
    rw [hp] at hp'
    cases hp'
    rcases hbadcell with ⟨r, hr, c, hcmem, hbm⟩
    exact retiredCoerceStage_not_ok (retiredPrepared_headers hp) hr hcmem
      (retiredFinalCoerce_bad hbm) t hcs

/-- C6 witness: the numeric branch at 5 and the failing build on the
    concrete 2018-format sheet whose retirement year is a blank string. -/
theorem C6_witness :
    retiredFinalCoerce (.num 5) = .ok (.num ((roundHalfEven 5 : ℤ) : ℚ))
    ∧ parse_retired 2018 exRetiredRawBlank ≠ .ok exRetiredOut :=
  ⟨C6_thm.2.2.1 5,
   C6_thm.2.2.2.1 2018 exRetiredRawBlank
     { headers := ["utility_name", "plant_name", "plant_code", "state", "county",
                   "nameplate_capacity", "energy_source", "operating_year", "retirement_year"],
       rows := [[.str "U1", .str "P1", .num 7, .str "CA", .str "X", .num 100,
                 .str "natural gas", .num 1970, .str " "]] }
     (by decide) (by decide) exRetiredOut⟩

/-- C4: if the synthesized generator uuids of the sheet contain a
    duplicate, the operating build aborts with no partial result, and on
    every successful return the output index of generator uuids is
    pairwise distinct. -/
theorem C4_thm (year : Int) (df : Table) :
    (∀ us, opUuids year df = .ok us → ¬ us.Nodup →
      ∀ t, parse_generators year df ≠ .ok t)
    ∧ (∀ t, parse_generators year df = .ok t → t.index.Nodup) := by
  constructor
  · intro us hus hnd t h
    unfold parse_generators at h
    rcases except_bindM_ok.mp h with ⟨us', hus', h2⟩
    rw [hus] at hus'
    cases hus'
    split at h2
    · dsimp only at h2
      split at h2
      · rename_i hnodup
        exact hnd hnodup
      · cases h2
    · cases h2
  · intro t h
    unfold parse_generators at h
    rcases except_bindM_ok.mp h with ⟨us, hus, h2⟩
    split at h2
    · dsimp only at h2
      split at h2
      · rename_i hnodup
        rcases except_bindM_ok.mp h2 with ⟨t4, h4, h5⟩
        cases except_pure_ok.mp h5
        rcases icoerceCol_ok h4 with ⟨hidx, _, _⟩
        have hsub := ifilterRows_index_sublist
          (t4.setColWith "energy_source"
            (fun r => classifyValue (getCell t4.headers r "energy_source_1")))
          (operatingKeep (t4.setColWith "energy_source"
            (fun r => classifyValue (getCell t4.headers r "energy_source_1"))).headers)
        rw [isetColWith_index, hidx] at hsub
        exact List.Nodup.sublist hsub hnodup
      · cases h2
    · cases h2

/-- C4 witness: the duplicated sheet (both rows yield 123_A) is
    rejected, and the output index on the well-formed sheet is Nodup. -/
theorem C4_witness :
    parse_generators 2018 exOperatingDup ≠ .ok exOperatingOut
    ∧ exOperatingOut.index.Nodup :=
  ⟨(C4_thm 2018 exOperatingDup).1 ["123_A", "123_A"] (by decide) (by decide) exOperatingOut,
   (C4_thm 2018 exOperatingRaw).2 exOperatingOut (by decide)⟩

/- ===== proposed pipeline ===== -/

theorem value_contains_iff {l : List Value} {v : Value} : l.contains v = true ↔ v ∈ l := by
  simp [List.contains_iff_exists_mem_beq, beq_iff_eq]

/-- C8: every successful proposed build keeps exactly the projected
    rows whose sector and status pass the filter: the output has one row
    per passing projected row, and every output row carries a sector in
    the allowed sector set and a status in the approved status set. -/
theorem C8_thm (year : Int) (df t2 t : Table)
    (hp : proposedProjected year df = .ok t2)
    (h : parse_proposed year df = .ok t) :
    t.rows.length = (t2.rows.filter (proposedKeep proposed_columns)).length
    ∧ ∀ r ∈ t.rows,
        getCell t.headers r "sector" ∈ proposed_sectors
        ∧ getCell t.headers r "status" ∈ proposed_statuses := by
  unfold proposedProjected at hp
  have h2h : t2.headers = proposed_columns := (project_ok hp).1
  have h2rows := (project_ok hp).2
  unfold parse_proposed at h
  rcases except_bindM_ok.mp h with ⟨t2', hp', hrest⟩
  unfold proposedProjected at hp'
  rw [hp] at hp'
  cases hp'
  dsimp only at hrest
  have hnone : colIdx (filterRows t2 (proposedKeep t2.headers)).headers "energy_source"
      = none := by
    show colIdx t2.headers "energy_source" = none
    rw [h2h]
    decide
  rw [setColWith_of_none hnone] at hrest
  rcases coerceCol_ok hrest with ⟨hth, i, hi, hrel⟩
  have hth2 : t.headers = t2.headers ++ ["energy_source"] := hth
  rw [h2h] at hth2
  have hi8 : i = 8 := by
    have : colIdx ((filterRows t2 (proposedKeep t2.headers)).headers ++ ["energy_source"])
        "effective_year" = some 8 := by
      show colIdx (t2.headers ++ ["energy_source"]) "effective_year" = some 8
      rw [h2h]
      decide
    rw [this] at hi
    exact (Option.some.inj hi).symm
  subst hi8
  constructor
  · rw [← hrel.length_eq]
    show ((filterRows t2 (proposedKeep t2.headers)).rows.map _).length = _
    rw [List.length_map]
    show (t2.rows.filter (proposedKeep t2.headers)).length = _
    rw [h2h]
  · intro r hr
    rcases forall₂_mem_right hrel r hr with ⟨r4, hr4, v, _, hrv⟩
    rcases List.mem_map.mp hr4 with ⟨rf, hrf, hrfe⟩
    have hrfmem : rf ∈ t2.rows ∧ proposedKeep t2.headers rf = true := by
      have := hrf
      rw [show (filterRows t2 (proposedKeep t2.headers)).rows
          = t2.rows.filter (proposedKeep t2.headers) from rfl] at this
      exact List.mem_filter.mp this
    have hrflen : rf.length = 10 := by
      have hm := hrfmem.1
      rw [h2rows] at hm
      rcases List.mem_map.mp hm with ⟨r0, _, hr0⟩
      rw [← hr0, List.length_map]
      rfl
    have hkeep := hrfmem.2
    rw [h2h] at hkeep
    unfold proposedKeep at hkeep
    rcases Bool.and_eq_true_iff.mp hkeep with ⟨hks, hkt⟩
    have hsec : colIdx t.headers "sector" = some 9 := by rw [hth2]; decide
    have hst : colIdx t.headers "status" = some 6 := by rw [hth2]; decide
    rw [getCell_of_colIdx hsec r, getCell_of_colIdx hst r, hrv, ← hrfe]
    rw [getD_set_ne (by decide), getD_set_ne (by decide)]
    rw [getD_append_lt (by rw [hrflen]; decide), getD_append_lt (by rw [hrflen]; decide)]
    have hgs : getCell proposed_columns rf "sector" = rf.getD 9 .missing :=
      getCell_of_colIdx (by decide) rf
    have hgt : getCell proposed_columns rf "status" = rf.getD 6 .missing :=
      getCell_of_colIdx (by decide) rf
    rw [hgs] at hks
    rw [hgt] at hkt
    exact ⟨value_contains_iff.mp hks, value_contains_iff.mp hkt⟩

/-- C8 witness: the theorem applied to the concrete TS, P, V sheet: the
    output has exactly the two passing rows and the surviving TS row
    passes both filters. -/
theorem C8_witness :
    exProposedOut.rows.length
      = (exProposedProj.rows.filter (proposedKeep proposed_columns)).length
    ∧ getCell exProposedOut.headers
        [.str "U1", .str "P1", .num 1, .str "CA", .str "X", .num 10, .str "TS", .str "SUN",
         .num 2022, .str "Electric Utility", .str "solar"] "sector" ∈ proposed_sectors
    ∧ getCell exProposedOut.headers
        [.str "U1", .str "P1", .num 1, .str "CA", .str "X", .num 10, .str "TS", .str "SUN",
         .num 2022, .str "Electric Utility", .str "solar"] "status" ∈ proposed_statuses :=
  ⟨(C8_thm 2018 exProposedRaw exProposedProj exProposedOut (by decide) (by decide)).1,
   (C8_thm 2018 exProposedRaw exProposedProj exProposedOut (by decide) (by decide)).2
     [.str "U1", .str "P1", .num 1, .str "CA", .str "X", .num 10, .str "TS", .str "SUN",
      .num 2022, .str "Electric Utility", .str "solar"] (by decide)⟩

/- ===== tracking a column through the pre-2001 fixup ===== -/

/-- Assigning one column leaves every other column in place: the index
    of any distinct column survives, and the cell it addresses in each
    output row equals the cell of some input row. -/
theorem setColWith_track {t : Table} {c d : String} {f : Row → Value}
    (hrect : Rect t) (hcd : c ≠ d) {i : Nat}
    (hd : colIdx t.headers d = some i) :
    colIdx (setColWith t c f).headers d = some i
    ∧ ∀ r' ∈ (setColWith t c f).rows, ∃ r ∈ t.rows,
        r'.getD i .missing = r.getD i .missing := by
  cases hc : colIdx t.headers c with
  | some j =>
    rw [setColWith_of_some hc]
    refine ⟨hd, ?_⟩
    intro r' hr'
    rcases List.mem_map.mp hr' with ⟨r, hr, hre⟩
    refine ⟨r, hr, ?_⟩
    rw [← hre, getD_set_ne (colIdx_ne hc hd hcd)]
  | none =>
    rw [setColWith_of_none hc]
    refine ⟨colIdx_append_left hd, ?_⟩
    intro r' hr'
    rcases List.mem_map.mp hr' with ⟨r, hr, hre⟩
    refine ⟨r, hr, ?_⟩
    rw [← hre, getD_append_lt]
    exact lt_of_lt_of_le (colIdx_lt hd) (le_of_eq (hrect r hr).symm)

/-- The year-2000 fixup keeps the raw existing_nameplate column in
    place under its new nameplate_capacity label and divides each of its
    cells by 1000, while all other assignments leave it untouched. -/
theorem retiredFixup2000_track {t0 t6d : Table}
    (hrect0 : Rect t0) {i0 : Nat}
    (hi0 : colIdx t0.headers "existing_nameplate" = some i0)
    (hnodup : ((setColWith t0 "sector" (fun _ => Value.str "Electric Utility")).headers.map
        (applyRename retiredSwap)).Nodup)
    (hfix : retiredFixup 2000 t0 = .ok t6d) :
    Rect t6d ∧ colIdx t6d.headers "nameplate_capacity" = some i0
    ∧ ∀ r' ∈ t6d.rows, ∃ r ∈ t0.rows,
        divBy1000 (r.getD i0 .missing) = .ok (r'.getD i0 .missing) := by
  rw [retiredFixup, if_pos (by norm_num)] at hfix
  dsimp only at hfix
  have h1 := @setColWith_track t0 "sector" "existing_nameplate"
    (fun _ => Value.str "Electric Utility") hrect0 (by decide) i0 hi0
  have hrect1 : Rect (setColWith t0 "sector" (fun _ => Value.str "Electric Utility")) :=
    rect_setColWith hrect0 _ _
  have hswapLbl : applyRename retiredSwap "existing_nameplate" = "nameplate_capacity" := by
    decide
  have h2idx : colIdx (renameCols retiredSwap (setColWith t0 "sector"
      (fun _ => Value.str "Electric Utility"))).headers "nameplate_capacity" = some i0 := by
    show colIdx ((setColWith t0 "sector" (fun _ => Value.str "Electric Utility")).headers.map
      (applyRename retiredSwap)) "nameplate_capacity" = some i0
    rw [← hswapLbl]
    exact colIdx_map_nodup hnodup h1.1
  have hrect2 : Rect (renameCols retiredSwap (setColWith t0 "sector"
      (fun _ => Value.str "Electric Utility"))) := rect_renameCols hrect1 _
  have h3 := @setColWith_track _ "utility_name" "nameplate_capacity" (fun _ => Value.str "")
    hrect2 (by decide) i0 h2idx
  have hrect3 := rect_setColWith hrect2 "utility_name" (fun _ => Value.str "")
  have h4 := @setColWith_track _ "plant_name" "nameplate_capacity" (fun _ => Value.str "")
    hrect3 (by decide) i0 h3.1
  have hrect4 := rect_setColWith hrect3 "plant_name" (fun _ => Value.str "")
  have h5 := @setColWith_track _ "state" "nameplate_capacity" (fun _ => Value.str "")
    hrect4 (by decide) i0 h4.1
  have hrect5 := rect_setColWith hrect4 "state" (fun _ => Value.str "")
  have h6 := @setColWith_track _ "county" "nameplate_capacity" (fun _ => Value.str "")
    hrect5 (by decide) i0 h5.1
  have hrect6 := rect_setColWith hrect5 "county" (fun _ => Value.str "")
  rcases coerceCol_ok hfix with ⟨hh6, j, hj, hrel⟩
  have hji : j = i0 := by
    rw [h6.1] at hj
    exact (Option.some.inj hj).symm
  rw [hji] at hrel
  refine ⟨rect_coerceCol hrect6 hfix, ?_, ?_⟩
  · rw [hh6]
    exact h6.1
  · intro r' hr'
    rcases forall₂_mem_right hrel r' hr' with ⟨s6, hs6, v, hv, hre⟩
    have hlen : i0 < s6.length := by
      rw [hrect6 s6 hs6]
      exact colIdx_lt h6.1
    have hval : r'.getD i0 .missing = v := by
      rw [hre]
      exact getD_set_self hlen v
    rcases h6.2 s6 hs6 with ⟨s5, hs5, e6⟩
    rcases h5.2 s5 hs5 with ⟨s4, hs4, e5⟩
    rcases h4.2 s4 hs4 with ⟨s3, hs3, e4⟩
    rcases h3.2 s3 hs3 with ⟨s2, hs2, e3⟩
    rcases h1.2 s2 hs2 with ⟨s0, hs0, e1⟩
    refine ⟨s0, hs0, ?_⟩
    rw [hval, ← e1, ← e3, ← e4, ← e5, ← e6]
    exact hv

/-- C7: for year 2000, under the well-formedness of the raw sheet
    (rectangular rows, an existing_nameplate column, and no label
    collision after the swap), every nameplate_capacity value of the
    retired output equals the raw existing_nameplate value of some input
    row divided by 1000 and rounded to the nearest integer (ties to
    even, as numpy rounds). -/
theorem C7_thm (df t : Table)
    (hparse : parse_retired 2000 df = .ok t)
    (hrect : Rect df)
    (hmem : "existing_nameplate" ∈ (retiredRenamed 2000 df).headers)
    (hnodup : ((setColWith (retiredRenamed 2000 df) "sector"
        (fun _ => Value.str "Electric Utility")).headers.map
        (applyRename retiredSwap)).Nodup) :
    ∀ row ∈ t.rows, ∃ r ∈ df.rows, ∃ q : ℚ,
      getCell (retiredRenamed 2000 df).headers r "existing_nameplate" = .num q
      ∧ getCell t.headers row "nameplate_capacity"
          = .num ((roundHalfEven (q / 1000) : ℤ) : ℚ) := by
  intro row hrow
  rcases except_bind_ok.mp hparse with ⟨tp, hprep, hcs⟩
  have htph : tp.headers = retired_columns := retiredPrepared_headers hprep
  have hth : t.headers = retired_columns := by
    rw [retiredCoerceStage_headers hcs, htph]
  unfold retiredCoerceStage at hcs
  rcases except_bindM_ok.mp hcs with ⟨tc1, hc1, hcs2⟩
  rcases except_bindM_ok.mp hcs2 with ⟨tc2, hc2, hc3⟩
  rcases coerceCol_ok hc3 with ⟨_, i3, hi3, hrel3⟩
  have hi3e : i3 = 5 := by
    rw [coerceCol_headers hc2, coerceCol_headers hc1, htph] at hi3
    have hcn : colIdx retired_columns "nameplate_capacity" = some 5 := by decide
    rw [hcn] at hi3
    exact (Option.some.inj hi3).symm
  subst hi3e
  rcases forall₂_mem_right hrel3 row hrow with ⟨rc2, hrc2, w, hw, hroweq⟩
  rcases coerceCol_ok hc2 with ⟨_, i2, hi2, hrel2⟩
  have hi2e : i2 = 8 := by
    rw [coerceCol_headers hc1, htph] at hi2
    have hcr : colIdx retired_columns "retirement_year" = some 8 := by decide
    rw [hcr] at hi2
    exact (Option.some.inj hi2).symm
  subst hi2e
  rcases forall₂_mem_right hrel2 rc2 hrc2 with ⟨rc1, hrc1, v2, _, hrc2eq⟩
  rcases coerceCol_ok hc1 with ⟨_, i1, hi1, hrel1⟩
  have hi1e : i1 = 7 := by
    rw [htph] at hi1
    have hco : colIdx retired_columns "operating_year" = some 7 := by decide
    rw [hco] at hi1
    exact (Option.some.inj hi1).symm
  subst hi1e
  rcases forall₂_mem_right hrel1 rc1 hrc1 with ⟨rp, hrp, v1, _, hrc1eq⟩
  have hval5 : rc2.getD 5 .missing = rp.getD 5 .missing := by
    rw [hrc2eq, hrc1eq, getD_set_ne (by decide), getD_set_ne (by decide)]
  unfold retiredPrepared at hprep
  rcases except_bindM_ok.mp hprep with ⟨t6d, hfix, hproj⟩
  dsimp only at hproj
  rcases project_ok hproj with ⟨_, hprows⟩
  rw [hprows] at hrp
  rcases List.mem_map.mp hrp with ⟨rf, hrf, hrpe⟩
  have hrect0 : Rect (retiredRenamed 2000 df) := by
    unfold retiredRenamed
    exact rect_renameCols (rect_mapCols hrect _) _
  rcases colIdx_isSome_of_mem hmem with ⟨i0, hi0⟩
  rcases retiredFixup2000_track hrect0 hi0 hnodup hfix with ⟨hrect6d, hidx6d, htrack⟩
  have hcls := @setColWith_track t6d "energy_source" "nameplate_capacity"
    (fun r => classifyValue (getCell t6d.headers r "energy_source_1")) hrect6d
    (by decide) i0 hidx6d
  have hrfX : rf ∈ (setColWith t6d "energy_source"
      (fun r => classifyValue (getCell t6d.headers r "energy_source_1"))).rows :=
    List.mem_of_mem_filter hrf
  rcases hcls.2 rf hrfX with ⟨r6, hr6, ecls⟩
  rcases htrack r6 hr6 with ⟨r0, hr0, hdiv⟩
  have hrp5 : rp.getD 5 .missing = rf.getD i0 .missing := by
    rw [← hrpe, getD_map_concrete retired_columns 5 "nameplate_capacity" (by decide) _]
    exact getCell_of_colIdx hcls.1 rf
  cases hu : r0.getD i0 .missing with
  | str s =>
    rw [hu] at hdiv
    simp [divBy1000] at hdiv
  | missing =>
    exfalso
    rw [hu] at hdiv
    simp only [divBy1000] at hdiv
    have h6m : r6.getD i0 .missing = Value.missing := (Except.ok.inj hdiv).symm
    have hcm : rc2.getD 5 .missing = Value.missing := by
      rw [hval5, hrp5, ecls, h6m]
    rw [hcm] at hw
    simp [retiredFinalCoerce, blankToMissing, pdRound, Except.bind, castInt] at hw
  | num q =>
    refine ⟨r0, hr0, q, ?_, ?_⟩
    · rw [getCell_of_colIdx hi0, hu]
    · rw [hu, divBy1000_num] at hdiv
      have h6v : r6.getD i0 .missing = .num (q / 1000) := (Except.ok.inj hdiv).symm
      have hrcv : rc2.getD 5 .missing = .num (q / 1000) := by
        rw [hval5, hrp5, ecls, h6v]
      rw [hrcv, retiredFinalCoerce_num] at hw
      have hwv : w = .num ((roundHalfEven (q / 1000) : ℤ) : ℚ) := (Except.ok.inj hw).symm
      have hnc : colIdx t.headers "nameplate_capacity" = some 5 := by rw [hth]; decide
      have hlen : rc2.length = 9 := by
        rw [hrc2eq, List.length_set, hrc1eq, List.length_set, ← hrpe, List.length_map]
        rfl
      rw [getCell_of_colIdx hnc, hroweq, getD_set_self (by rw [hlen]; decide) w, hwv]

/-- C7 witness: on the concrete pre-2001 sheet, the output row with
    nameplate 123 MW traces back to a raw existing_nameplate of
    123456 kW. -/
theorem C7_witness :
    ∃ r ∈ exRetired2000Raw.rows, ∃ q : ℚ,
      getCell (retiredRenamed 2000 exRetired2000Raw).headers r "existing_nameplate" = .num q
      ∧ getCell exRetired2000Out.headers
          [.str "", .str "", .num 1, .str "", .str "", .num 123, .str "coal",
           .num 1970, .num 1999] "nameplate_capacity"
        = .num ((roundHalfEven (q / 1000) : ℤ) : ℚ) :=
  C7_thm exRetired2000Raw exRetired2000Out (by decide) (by unfold Rect; decide) (by decide)
    (by decide)
    [.str "", .str "", .num 1, .str "", .str "", .num 123, .str "coal", .num 1970, .num 1999]
    (by decide)
